import Mathlib

/-!
Verification of the two-sensor direction-resolution engine of
double_sensor_logic.py: the TDT calibration procedure (set_tdt_values) and
the main-loop state machine that turns range samples from the entry and
exit sensors into directional Entry/Exit events.

The main loop is embedded at the granularity of one sensor-pair read.  The
inner while-loops of the source (while state == maybe_entry / maybe_exit) only
terminate by setting state back to idle, so at the top of every outer
iteration the state is idle; flattening outer iterations and inner
iterations into a single step function over per-read inputs is faithful.
Wall-clock instants and date keys are modelled as naturals; distances are
unsigned integer millimetres, as reported by the VL53L0X driver.
-/

namespace DoubleSensorLogic

/-- The string-valued state variable of the source takes exactly the values
idle, maybe_entry and maybe_exit. -/
inductive SState where
  | idle
  | maybe_entry
  | maybe_exit

deriving instance DecidableEq for SState

/-- Direction of a logged event.  An entry is written to the daily CSV as
a row with entry_count 1 and exit_count 0; an exit as 0 and 1. -/
inductive EvKind where
  | entry
  | exit

deriving instance DecidableEq for EvKind

/-- A CSV row produced by the main loop: the csv_writer.writerow call
passes current_date, current_time and the direction counts. -/
structure Event where
  kind : EvKind
  date : Nat
  time : Nat

deriving instance DecidableEq for Event

/-- The configuration parameters read from sensor_config.json that the
main loop uses: min_tdt, max_tdt, event_timeout, reset_time,
poll_interval. -/
structure Cfg where
  min_tdt : Nat
  max_tdt : Nat
  event_timeout : Nat
  reset_time : Nat
  poll_interval : Nat

/-- The mutable state threaded through the main loop: the state string,
the armed timeout_time, and the current_date / current_time values
captured at the top of the most recent outer iteration (these stamp any
event emitted while the candidate armed on that iteration is pending). -/
structure ResolverSt where
  state : SState
  timeout_time : Nat
  current_date : Nat
  current_time : Nat

deriving instance DecidableEq for ResolverSt

/-- One sensor-pair read: entry_sensor.range, exit_sensor.range, the
wall-clock instant of the read and the date key at the read. -/
structure Input where
  entry_sensor_reading : Nat
  exit_sensor_reading : Nat
  now : Nat
  today : Nat

deriving instance DecidableEq for Input

/-- The chained comparison min_tdt <= reading <= max_tdt that the main
loop writes at its three decision points (idle dispatch on the entry
sensor, idle dispatch on the exit sensor, and the two confirmation
checks). -/
def in_tdt (cfg : Cfg) (d : Nat) : Prop :=
  cfg.min_tdt ≤ d ∧ d ≤ cfg.max_tdt

instance (cfg : Cfg) (d : Nat) : Decidable (in_tdt cfg d) :=
  inferInstanceAs (Decidable (cfg.min_tdt ≤ d ∧ d ≤ cfg.max_tdt))

/-- One pass of the flattened main loop on one sensor-pair read.
Returns the new resolver state, the CSV rows written during the pass, and
a lower bound on the time slept before the next read.

idle: this is the top of an outer iteration; current_date and
current_time are recaptured.  If the entry reading is in TDT the state
becomes maybe_entry (the elif gives the entry sensor priority), else if
the exit reading is in TDT it becomes maybe_exit; either way
timeout_time is armed to now + event_timeout and control falls straight
into the inner loop, which re-reads the sensors with no intervening
sleep.  Otherwise the iteration ends with time.sleep(poll_interval).

maybe_entry: one iteration of the inner while-loop.  If the exit reading
is in TDT a row (current_date, current_time, 1, 0) is written, the loop
sleeps reset_time, sets state to idle, and (the trailing timeout check
cannot fire because the exit reading is at most max_tdt) falls out to the
outer time.sleep(poll_interval).  Otherwise, if now has reached
timeout_time and both readings are strictly above max_tdt the state
returns to idle with no row written; otherwise the inner loop repeats
immediately with no sleep.

maybe_exit: symmetric, confirming on the entry reading and writing a row
(current_date, current_time, 0, 1). -/
def step (cfg : Cfg) (s : ResolverSt) (inp : Input) : ResolverSt × List Event × Nat :=
  match s.state with
  | .idle =>
    if in_tdt cfg inp.entry_sensor_reading then
      (⟨.maybe_entry, inp.now + cfg.event_timeout, inp.today, inp.now⟩, [], 0)
    else if in_tdt cfg inp.exit_sensor_reading then
      (⟨.maybe_exit, inp.now + cfg.event_timeout, inp.today, inp.now⟩, [], 0)
    else
      (⟨.idle, s.timeout_time, inp.today, inp.now⟩, [], cfg.poll_interval)
  | .maybe_entry =>
    if in_tdt cfg inp.exit_sensor_reading then
      (⟨.idle, s.timeout_time, s.current_date, s.current_time⟩,
        [⟨.entry, s.current_date, s.current_time⟩],
        cfg.reset_time + cfg.poll_interval)
    else if inp.now ≥ s.timeout_time ∧ inp.entry_sensor_reading > cfg.max_tdt ∧
        inp.exit_sensor_reading > cfg.max_tdt then
      (⟨.idle, s.timeout_time, s.current_date, s.current_time⟩, [], cfg.poll_interval)
    else
      (s, [], 0)
  | .maybe_exit =>
    if in_tdt cfg inp.entry_sensor_reading then
      (⟨.idle, s.timeout_time, s.current_date, s.current_time⟩,
        [⟨.exit, s.current_date, s.current_time⟩],
        cfg.reset_time + cfg.poll_interval)
    else if inp.now ≥ s.timeout_time ∧ inp.entry_sensor_reading > cfg.max_tdt ∧
        inp.exit_sensor_reading > cfg.max_tdt then
      (⟨.idle, s.timeout_time, s.current_date, s.current_time⟩, [], cfg.poll_interval)
    else
      (s, [], 0)

/-- The state component of one step. -/
def stepSt (cfg : Cfg) (s : ResolverSt) (inp : Input) : ResolverSt :=
  (step cfg s inp).1

/-- The rows written during one step. -/
def stepEvents (cfg : Cfg) (s : ResolverSt) (inp : Input) : List Event :=
  (step cfg s inp).2.1

/-- The lower bound on the time slept after one step, before the next
read. -/
def sleep_after (cfg : Cfg) (s : ResolverSt) (inp : Input) : Nat :=
  (step cfg s inp).2.2

/-- The resolver state after consuming a list of reads. -/
def endState (cfg : Cfg) (s : ResolverSt) (l : List Input) : ResolverSt :=
  l.foldl (stepSt cfg) s

/-- All rows written while consuming a list of reads. -/
def runEvents (cfg : Cfg) : ResolverSt → List Input → List Event
  | _, [] => []
  | s, i :: rest => stepEvents cfg s i ++ runEvents cfg (stepSt cfg s i) rest

/-- A list of timestamped reads is a possible real-time trace of the loop
when each read happens no earlier than the previous read plus the time
the loop slept after it. -/
def ValidTrace (cfg : Cfg) : ResolverSt → List Input → Prop
  | _, [] => True
  | _, [_] => True
  | s, i :: j :: rest =>
    i.now + sleep_after cfg s i ≤ j.now ∧ ValidTrace cfg (stepSt cfg s i) (j :: rest)

/-- One iteration of a set_tdt_values calibration loop body: the running
minimum m is lowered first by the entry sensor reading, then by the exit
sensor reading (if entry_sensor_reading < m then m = entry_sensor_reading;
if exit_sensor_reading < m then m = exit_sensor_reading). -/
def tdt_scan_step (m : Nat) (p : Nat × Nat) : Nat :=
  min (min m p.1) p.2

/-- One 3-second calibration window of set_tdt_values: starting from the
initial value (8000 in the source), fold the loop body over the sequence
of (entry reading, exit reading) pairs observed before the stop_time of
the window (or before a KeyboardInterrupt ends the window early). -/
def tdt_scan (init : Nat) (readings : List (Nat × Nat)) : Nat :=
  readings.foldl tdt_scan_step init

/-- set_tdt_values: min_tdt and max_tdt both start at 8000; min_tdt is
the scan of the readings of the first window and max_tdt the scan of
the readings of the second window, and the pair (min_tdt, max_tdt) is returned. -/
def set_tdt_values (w1 w2 : List (Nat × Nat)) : Nat × Nat :=
  (tdt_scan 8000 w1, tdt_scan 8000 w2)

/-- The multiset of individual distances observed across both sensors in
a calibration window, as a list. -/
def observed (readings : List (Nat × Nat)) : List Nat :=
  readings.foldr (fun p r => p.1 :: p.2 :: r) []

/-- A read attempt for one tick: entry_sensor.range is evaluated first
and exit_sensor.range second, and either .range call may raise (modelled
as an error code).  If the entry read raises, the exit read never
happens. -/
structure InputE where
  entry_read : Except Nat Nat
  exit_read : Except Nat Nat
  now : Nat
  today : Nat

/-- Gathering the samples of one tick: the entry read is forced first, then
the exit read; the first raised error propagates. -/
def read_pair (i : InputE) : Except Nat Input :=
  match i.entry_read with
  | .error e => .error e
  | .ok er =>
    match i.exit_read with
    | .error e => .error e
    | .ok xr => .ok ⟨er, xr, i.now, i.today⟩

/-- The main loop with fallible sensor reads.  The loop body is wrapped
in try/except KeyboardInterrupt only, so an exception raised by a .range
call propagates out of the whole loop: the run stops at the failing
tick, with the resolver state as it was before that tick, the rows
written so far, and the error surfaced to the caller of main.  No later
tick is processed. -/
def runE (cfg : Cfg) : ResolverSt → List InputE → ResolverSt × List Event × Option Nat
  | s, [] => (s, [], none)
  | s, i :: rest =>
    match read_pair i with
    | .error e => (s, [], some e)
    | .ok inp =>
      let r := runE cfg (stepSt cfg s inp) rest
      (r.1, stepEvents cfg s inp ++ r.2.1, r.2.2)

end DoubleSensorLogic

namespace DoubleSensorLogic

theorem step_maybe_entry_confirm (cfg : Cfg) (s : ResolverSt) (inp : Input)
    (hs : s.state = .maybe_entry) (h : in_tdt cfg inp.exit_sensor_reading) :
    step cfg s inp = (⟨.idle, s.timeout_time, s.current_date, s.current_time⟩,
      [⟨.entry, s.current_date, s.current_time⟩], cfg.reset_time + cfg.poll_interval) := by
  unfold step
  rw [hs]
  simp [h]

theorem step_maybe_entry_abandon (cfg : Cfg) (s : ResolverSt) (inp : Input)
    (hs : s.state = .maybe_entry)
    (ht : inp.now ≥ s.timeout_time)
    (he : inp.entry_sensor_reading > cfg.max_tdt)
    (hx : inp.exit_sensor_reading > cfg.max_tdt) :
    step cfg s inp = (⟨.idle, s.timeout_time, s.current_date, s.current_time⟩,
      [], cfg.poll_interval) := by
  have hnot : ¬ in_tdt cfg inp.exit_sensor_reading := fun hc => absurd hc.2 (not_le.mpr hx)
  unfold step
  rw [hs]
  simp [hnot, ht, he, hx]

theorem step_maybe_entry_pending (cfg : Cfg) (s : ResolverSt) (inp : Input)
    (hs : s.state = .maybe_entry)
    (hnot : ¬ in_tdt cfg inp.exit_sensor_reading)
    (hno : ¬ (inp.now ≥ s.timeout_time ∧ inp.entry_sensor_reading > cfg.max_tdt ∧
      inp.exit_sensor_reading > cfg.max_tdt)) :
    step cfg s inp = (s, [], 0) := by
  unfold step
  rw [hs]
  simp [hnot, hno]

theorem step_idle_entry (cfg : Cfg) (s : ResolverSt) (inp : Input)
    (hs : s.state = .idle) (h : in_tdt cfg inp.entry_sensor_reading) :
    step cfg s inp =
      (⟨.maybe_entry, inp.now + cfg.event_timeout, inp.today, inp.now⟩, [], 0) := by
  unfold step
  rw [hs]
  simp [h]

theorem step_idle_exit (cfg : Cfg) (s : ResolverSt) (inp : Input)
    (hs : s.state = .idle) (hne : ¬ in_tdt cfg inp.entry_sensor_reading)
    (h : in_tdt cfg inp.exit_sensor_reading) :
    step cfg s inp =
      (⟨.maybe_exit, inp.now + cfg.event_timeout, inp.today, inp.now⟩, [], 0) := by
  unfold step
  rw [hs]
  simp [hne, h]

theorem step_idle_none (cfg : Cfg) (s : ResolverSt) (inp : Input)
    (hs : s.state = .idle) (hne : ¬ in_tdt cfg inp.entry_sensor_reading)
    (hnx : ¬ in_tdt cfg inp.exit_sensor_reading) :
    step cfg s inp =
      (⟨.idle, s.timeout_time, inp.today, inp.now⟩, [], cfg.poll_interval) := by
  unfold step
  rw [hs]
  simp [hne, hnx]

end DoubleSensorLogic

namespace DoubleSensorLogic

theorem step_maybe_exit_confirm (cfg : Cfg) (s : ResolverSt) (inp : Input)
    (hs : s.state = .maybe_exit) (h : in_tdt cfg inp.entry_sensor_reading) :
    step cfg s inp = (⟨.idle, s.timeout_time, s.current_date, s.current_time⟩,
      [⟨.exit, s.current_date, s.current_time⟩], cfg.reset_time + cfg.poll_interval) := by
  unfold step
  rw [hs]
  simp [h]

theorem step_maybe_exit_abandon (cfg : Cfg) (s : ResolverSt) (inp : Input)
    (hs : s.state = .maybe_exit)
    (ht : inp.now ≥ s.timeout_time)
    (he : inp.entry_sensor_reading > cfg.max_tdt)
    (hx : inp.exit_sensor_reading > cfg.max_tdt) :
    step cfg s inp = (⟨.idle, s.timeout_time, s.current_date, s.current_time⟩,
      [], cfg.poll_interval) := by
  have hnot : ¬ in_tdt cfg inp.entry_sensor_reading := fun hc => absurd hc.2 (not_le.mpr he)
  unfold step
  rw [hs]
  simp [hnot, ht, he, hx]

theorem step_maybe_exit_pending (cfg : Cfg) (s : ResolverSt) (inp : Input)
    (hs : s.state = .maybe_exit)
    (hnot : ¬ in_tdt cfg inp.entry_sensor_reading)
    (hno : ¬ (inp.now ≥ s.timeout_time ∧ inp.entry_sensor_reading > cfg.max_tdt ∧
      inp.exit_sensor_reading > cfg.max_tdt)) :
    step cfg s inp = (s, [], 0) := by
  unfold step
  rw [hs]
  simp [hnot, hno]

theorem stepEvents_idle_nil (cfg : Cfg) (s : ResolverSt) (inp : Input)
    (hs : s.state = .idle) : stepEvents cfg s inp = [] := by
  unfold stepEvents step
  rw [hs]
  split_ifs <;> rfl

theorem stepEvents_maybe_entry_eq (cfg : Cfg) (s : ResolverSt) (inp : Input)
    (hs : s.state = .maybe_entry) :
    stepEvents cfg s inp = if in_tdt cfg inp.exit_sensor_reading then
      [⟨.entry, s.current_date, s.current_time⟩] else [] := by
  unfold stepEvents step
  rw [hs]
  split_ifs <;> rfl

theorem stepEvents_maybe_exit_eq (cfg : Cfg) (s : ResolverSt) (inp : Input)
    (hs : s.state = .maybe_exit) :
    stepEvents cfg s inp = if in_tdt cfg inp.entry_sensor_reading then
      [⟨.exit, s.current_date, s.current_time⟩] else [] := by
  unfold stepEvents step
  rw [hs]
  split_ifs <;> rfl

/-- Claim C2: while Idle, if both samples are inside the TDT window on the
same tick the resulting state is maybe_entry (entry priority, from the
if/elif ordering), and Idle moves to maybe_exit only when the exit sample
is in the window while the entry condition did not fire. -/
theorem claim2_idle_priority (cfg : Cfg) (s : ResolverSt) (inp : Input)
    (hs : s.state = .idle) :
    (in_tdt cfg inp.entry_sensor_reading → in_tdt cfg inp.exit_sensor_reading →
      (stepSt cfg s inp).state = .maybe_entry) ∧
    ((stepSt cfg s inp).state = .maybe_exit →
      in_tdt cfg inp.exit_sensor_reading ∧ ¬ in_tdt cfg inp.entry_sensor_reading) := by
  constructor
  · intro h1 _
    unfold stepSt
    rw [step_idle_entry cfg s inp hs h1]
  · intro hmx
    by_cases h1 : in_tdt cfg inp.entry_sensor_reading
    · unfold stepSt at hmx
      rw [step_idle_entry cfg s inp hs h1] at hmx
      exact absurd hmx (by intro h; cases h)
    · by_cases h2 : in_tdt cfg inp.exit_sensor_reading
      · exact ⟨h2, h1⟩
      · unfold stepSt at hmx
        rw [step_idle_none cfg s inp hs h1 h2] at hmx
        exact absurd hmx (by intro h; cases h)

theorem claim2_witness :
    (stepSt ⟨100, 200, 10, 5, 1⟩ ⟨.idle, 0, 0, 0⟩ ⟨150, 160, 0, 1⟩).state =
      SState.maybe_entry :=
  (claim2_idle_priority ⟨100, 200, 10, 5, 1⟩ ⟨.idle, 0, 0, 0⟩ ⟨150, 160, 0, 1⟩ rfl).1
    (by decide) (by decide)

/-- Claim C3: a pending candidate whose deadline has elapsed on a tick
where both sensors read strictly above max_tdt returns to Idle with no
event emitted. -/
theorem claim3_timeout_abandon (cfg : Cfg) (s : ResolverSt) (inp : Input)
    (hs : s.state = .maybe_entry ∨ s.state = .maybe_exit)
    (ht : inp.now ≥ s.timeout_time)
    (he : inp.entry_sensor_reading > cfg.max_tdt)
    (hx : inp.exit_sensor_reading > cfg.max_tdt) :
    step cfg s inp = (⟨.idle, s.timeout_time, s.current_date, s.current_time⟩,
      [], cfg.poll_interval) := by
  rcases hs with hs | hs
  · exact step_maybe_entry_abandon cfg s inp hs ht he hx
  · exact step_maybe_exit_abandon cfg s inp hs ht he hx

theorem claim3_witness :
    step ⟨100, 200, 10, 5, 1⟩ ⟨.maybe_entry, 10, 1, 0⟩ ⟨300, 400, 12, 1⟩ =
      (⟨.idle, 10, 1, 0⟩, [], 1) :=
  claim3_timeout_abandon ⟨100, 200, 10, 5, 1⟩ ⟨.maybe_entry, 10, 1, 0⟩ ⟨300, 400, 12, 1⟩
    (Or.inl rfl) (by decide) (by decide) (by decide)

end DoubleSensorLogic

namespace DoubleSensorLogic

/-- Claim C6: TDT membership is the inclusive range test
min_tdt <= d <= max_tdt, and every in-TDT decision of the resolver (the
idle dispatch on each sensor and both confirmation checks) is equivalent
to that inclusive test. -/
theorem claim6_inclusive_window (cfg : Cfg) (d : Nat) (s : ResolverSt) (inp : Input) :
    (in_tdt cfg d ↔ cfg.min_tdt ≤ d ∧ d ≤ cfg.max_tdt) ∧
    (s.state = .idle →
      ((stepSt cfg s inp).state = .maybe_entry ↔ in_tdt cfg inp.entry_sensor_reading)) ∧
    (s.state = .idle → ¬ in_tdt cfg inp.entry_sensor_reading →
      ((stepSt cfg s inp).state = .maybe_exit ↔ in_tdt cfg inp.exit_sensor_reading)) ∧
    (s.state = .maybe_entry →
      (stepEvents cfg s inp ≠ [] ↔ in_tdt cfg inp.exit_sensor_reading)) ∧
    (s.state = .maybe_exit →
      (stepEvents cfg s inp ≠ [] ↔ in_tdt cfg inp.entry_sensor_reading)) := by
  refine ⟨Iff.rfl, ?_, ?_, ?_, ?_⟩
  · intro hs
    constructor
    · intro hme
      by_contra h1
      by_cases h2 : in_tdt cfg inp.exit_sensor_reading
      · unfold stepSt at hme
        rw [step_idle_exit cfg s inp hs h1 h2] at hme
        cases hme
      · unfold stepSt at hme
        rw [step_idle_none cfg s inp hs h1 h2] at hme
        cases hme
    · intro h1
      unfold stepSt
      rw [step_idle_entry cfg s inp hs h1]
  · intro hs hne
    constructor
    · intro hmx
      by_contra h2
      unfold stepSt at hmx
      rw [step_idle_none cfg s inp hs hne h2] at hmx
      cases hmx
    · intro h2
      unfold stepSt
      rw [step_idle_exit cfg s inp hs hne h2]
  · intro hs
    rw [stepEvents_maybe_entry_eq cfg s inp hs]
    constructor
    · intro hne
      by_contra h
      rw [if_neg h] at hne
      exact hne rfl
    · intro h
      rw [if_pos h]
      exact List.cons_ne_nil _ _
  · intro hs
    rw [stepEvents_maybe_exit_eq cfg s inp hs]
    constructor
    · intro hne
      by_contra h
      rw [if_neg h] at hne
      exact hne rfl
    · intro h
      rw [if_pos h]
      exact List.cons_ne_nil _ _

theorem claim6_witness :
    in_tdt ⟨100, 200, 10, 5, 1⟩ 100 ∧ in_tdt ⟨100, 200, 10, 5, 1⟩ 200 ∧
      stepEvents ⟨100, 200, 10, 5, 1⟩ ⟨.maybe_entry, 10, 1, 0⟩ ⟨300, 200, 2, 1⟩ ≠ [] :=
  ⟨(claim6_inclusive_window ⟨100, 200, 10, 5, 1⟩ 100 ⟨.idle, 0, 0, 0⟩
      ⟨150, 160, 0, 1⟩).1.mpr (by decide),
   (claim6_inclusive_window ⟨100, 200, 10, 5, 1⟩ 200 ⟨.idle, 0, 0, 0⟩
      ⟨150, 160, 0, 1⟩).1.mpr (by decide),
   ((claim6_inclusive_window ⟨100, 200, 10, 5, 1⟩ 0 ⟨.maybe_entry, 10, 1, 0⟩
      ⟨300, 200, 2, 1⟩).2.2.2.1 rfl).mpr (by decide)⟩

/-- Claim C10: the EventTimeout deadline never disables confirmation: in
maybe_entry a confirming in-TDT exit sample emits the Entry row and
returns to Idle with no condition on the clock (symmetrically for
maybe_exit), and a candidate is abandoned without an event only on a
tick where the deadline has passed and both sensors read strictly above
max_tdt. -/
theorem claim10_confirm_after_deadline (cfg : Cfg) (s : ResolverSt) (inp : Input) :
    (s.state = .maybe_entry → in_tdt cfg inp.exit_sensor_reading →
      stepEvents cfg s inp = [⟨.entry, s.current_date, s.current_time⟩] ∧
      (stepSt cfg s inp).state = .idle) ∧
    (s.state = .maybe_exit → in_tdt cfg inp.entry_sensor_reading →
      stepEvents cfg s inp = [⟨.exit, s.current_date, s.current_time⟩] ∧
      (stepSt cfg s inp).state = .idle) ∧
    (s.state = .maybe_entry → (stepSt cfg s inp).state = .idle →
      stepEvents cfg s inp = [] →
      inp.now ≥ s.timeout_time ∧ inp.entry_sensor_reading > cfg.max_tdt ∧
        inp.exit_sensor_reading > cfg.max_tdt) ∧
    (s.state = .maybe_exit → (stepSt cfg s inp).state = .idle →
      stepEvents cfg s inp = [] →
      inp.now ≥ s.timeout_time ∧ inp.entry_sensor_reading > cfg.max_tdt ∧
        inp.exit_sensor_reading > cfg.max_tdt) := by
  refine ⟨?_, ?_, ?_, ?_⟩
  · intro hs h
    unfold stepEvents stepSt
    rw [step_maybe_entry_confirm cfg s inp hs h]
    exact ⟨rfl, rfl⟩
  · intro hs h
    unfold stepEvents stepSt
    rw [step_maybe_exit_confirm cfg s inp hs h]
    exact ⟨rfl, rfl⟩
  · intro hs hidle hnil
    by_cases h1 : in_tdt cfg inp.exit_sensor_reading
    · unfold stepEvents at hnil
      rw [step_maybe_entry_confirm cfg s inp hs h1] at hnil
      cases hnil
    · by_cases h2 : inp.now ≥ s.timeout_time ∧ inp.entry_sensor_reading > cfg.max_tdt ∧
        inp.exit_sensor_reading > cfg.max_tdt
      · exact h2
      · unfold stepSt at hidle
        rw [step_maybe_entry_pending cfg s inp hs h1 h2] at hidle
        rw [hs] at hidle
        cases hidle
  · intro hs hidle hnil
    by_cases h1 : in_tdt cfg inp.entry_sensor_reading
    · unfold stepEvents at hnil
      rw [step_maybe_exit_confirm cfg s inp hs h1] at hnil
      cases hnil
    · by_cases h2 : inp.now ≥ s.timeout_time ∧ inp.entry_sensor_reading > cfg.max_tdt ∧
        inp.exit_sensor_reading > cfg.max_tdt
      · exact h2
      · unfold stepSt at hidle
        rw [step_maybe_exit_pending cfg s inp hs h1 h2] at hidle
        rw [hs] at hidle
        cases hidle

theorem claim10_witness :
    stepEvents ⟨100, 200, 10, 5, 1⟩ ⟨.maybe_entry, 10, 1, 0⟩ ⟨300, 160, 500, 1⟩ =
      [⟨.entry, 1, 0⟩] ∧
    (stepSt ⟨100, 200, 10, 5, 1⟩ ⟨.maybe_entry, 10, 1, 0⟩ ⟨300, 160, 500, 1⟩).state =
      SState.idle :=
  (claim10_confirm_after_deadline ⟨100, 200, 10, 5, 1⟩ ⟨.maybe_entry, 10, 1, 0⟩
    ⟨300, 160, 500, 1⟩).1 rfl (by decide)

end DoubleSensorLogic

namespace DoubleSensorLogic

theorem stepEvents_mem (cfg : Cfg) (s : ResolverSt) (inp : Input) (e : Event)
    (he : e ∈ stepEvents cfg s inp) :
    (s.state = .maybe_entry ∧ in_tdt cfg inp.exit_sensor_reading ∧
      e = ⟨.entry, s.current_date, s.current_time⟩) ∨
    (s.state = .maybe_exit ∧ in_tdt cfg inp.entry_sensor_reading ∧
      e = ⟨.exit, s.current_date, s.current_time⟩) := by
  cases hst : s.state with
  | idle =>
    rw [stepEvents_idle_nil cfg s inp hst] at he
    cases he
  | maybe_entry =>
    rw [stepEvents_maybe_entry_eq cfg s inp hst] at he
    by_cases h : in_tdt cfg inp.exit_sensor_reading
    · rw [if_pos h] at he
      exact Or.inl ⟨rfl, h, List.mem_singleton.mp he⟩
    · rw [if_neg h] at he
      cases he
  | maybe_exit =>
    rw [stepEvents_maybe_exit_eq cfg s inp hst] at he
    by_cases h : in_tdt cfg inp.entry_sensor_reading
    · rw [if_pos h] at he
      exact Or.inr ⟨rfl, h, List.mem_singleton.mp he⟩
    · rw [if_neg h] at he
      cases he

theorem runEvents_no_entry (cfg : Cfg) : ∀ (l : List Input) (s : ResolverSt),
    (∀ i ∈ l, ¬ in_tdt cfg i.exit_sensor_reading) →
    ∀ e ∈ runEvents cfg s l, e.kind ≠ EvKind.entry := by
  intro l
  induction l with
  | nil =>
    intro s _ e he
    cases he
  | cons i rest ih =>
    intro s h e he
    rw [runEvents] at he
    rcases List.mem_append.mp he with h1 | h1
    · rcases stepEvents_mem cfg s i e h1 with ⟨_, hin, _⟩ | ⟨_, _, rfl⟩
      · exact absurd hin (h i (List.mem_cons_self i rest))
      · intro hk
        cases hk
    · exact ih (stepSt cfg s i) (fun j hj => h j (List.mem_cons_of_mem i hj)) e h1

theorem runEvents_no_exit (cfg : Cfg) : ∀ (l : List Input) (s : ResolverSt),
    (∀ i ∈ l, ¬ in_tdt cfg i.entry_sensor_reading) →
    ∀ e ∈ runEvents cfg s l, e.kind ≠ EvKind.exit := by
  intro l
  induction l with
  | nil =>
    intro s _ e he
    cases he
  | cons i rest ih =>
    intro s h e he
    rw [runEvents] at he
    rcases List.mem_append.mp he with h1 | h1
    · rcases stepEvents_mem cfg s i e h1 with ⟨_, _, rfl⟩ | ⟨_, hin, _⟩
      · intro hk
        cases hk
      · exact absurd hin (h i (List.mem_cons_self i rest))
    · exact ih (stepSt cfg s i) (fun j hj => h j (List.mem_cons_of_mem i hj)) e h1

/-- Claim C4: the Idle state never emits; a row is written only on a
confirming transition from a pending state back to Idle, with the
confirming sample (from the other sensor) inside the TDT window; and a
single-sensor trigger never suffices: if the exit sensor is never in TDT
no Entry row is ever written, and if the entry sensor is never in TDT no
Exit row is ever written. -/
theorem claim4_events_need_confirm (cfg : Cfg) :
    (∀ s inp, s.state = .idle → stepEvents cfg s inp = []) ∧
    (∀ s inp, stepEvents cfg s inp ≠ [] →
      ((s.state = .maybe_entry ∧ in_tdt cfg inp.exit_sensor_reading) ∨
        (s.state = .maybe_exit ∧ in_tdt cfg inp.entry_sensor_reading)) ∧
      (stepSt cfg s inp).state = .idle) ∧
    (∀ s l, (∀ i ∈ l, ¬ in_tdt cfg i.exit_sensor_reading) →
      ∀ e ∈ runEvents cfg s l, e.kind ≠ EvKind.entry) ∧
    (∀ s l, (∀ i ∈ l, ¬ in_tdt cfg i.entry_sensor_reading) →
      ∀ e ∈ runEvents cfg s l, e.kind ≠ EvKind.exit) := by
  refine ⟨fun s inp hs => stepEvents_idle_nil cfg s inp hs, ?_,
    fun s l h => runEvents_no_entry cfg l s h, fun s l h => runEvents_no_exit cfg l s h⟩
  intro s inp hne
  obtain ⟨e, he⟩ := List.exists_mem_of_ne_nil _ hne
  rcases stepEvents_mem cfg s inp e he with ⟨hs, hin, _⟩ | ⟨hs, hin, _⟩
  · refine ⟨Or.inl ⟨hs, hin⟩, ?_⟩
    unfold stepSt
    rw [step_maybe_entry_confirm cfg s inp hs hin]
  · refine ⟨Or.inr ⟨hs, hin⟩, ?_⟩
    unfold stepSt
    rw [step_maybe_exit_confirm cfg s inp hs hin]

theorem claim4_witness :
    stepEvents ⟨100, 200, 10, 5, 1⟩ ⟨.idle, 5, 1, 0⟩ ⟨150, 160, 0, 1⟩ = [] :=
  (claim4_events_need_confirm ⟨100, 200, 10, 5, 1⟩).1 ⟨.idle, 5, 1, 0⟩ ⟨150, 160, 0, 1⟩ rfl

end DoubleSensorLogic

namespace DoubleSensorLogic

/-- Claim C1 counterexample: the scripted sequence with TDT window
[100, 200] — entry sensor reads 150mm at instant 0, one tick later the
exit sensor reads 160mm at instant 50 — does produce exactly one Entry
row and return to idle, but the row is stamped with instant 0 (the
current_time captured at the top of the outer iteration that armed the
candidate), not with instant 50, the moment of emission. -/
theorem claim1_counterexample :
    runEvents ⟨100, 200, 10, 5, 1⟩ ⟨.idle, 0, 0, 0⟩
        [⟨150, 300, 0, 1⟩, ⟨300, 160, 50, 1⟩] = [⟨.entry, 1, 0⟩] ∧
    runEvents ⟨100, 200, 10, 5, 1⟩ ⟨.idle, 0, 0, 0⟩
        [⟨150, 300, 0, 1⟩, ⟨300, 160, 50, 1⟩] ≠ [⟨.entry, 1, 50⟩] ∧
    (endState ⟨100, 200, 10, 5, 1⟩ ⟨.idle, 0, 0, 0⟩
        [⟨150, 300, 0, 1⟩, ⟨300, 160, 50, 1⟩]).state = SState.idle := by
  decide

/-- Claim C1 (amended): while the resolver is pending entry confirmation,
any tick whose exit sample is in the TDT window writes exactly one Entry
row, stamped with the current_date and current_time captured when the
candidate was armed, returns the state to idle, and sleeps at least
ResetTime before the next read. -/
theorem claim1_entry_event (cfg : Cfg) (s : ResolverSt) (inp : Input)
    (hs : s.state = .maybe_entry) (h : in_tdt cfg inp.exit_sensor_reading) :
    stepEvents cfg s inp = [⟨.entry, s.current_date, s.current_time⟩] ∧
    (stepSt cfg s inp).state = .idle ∧
    cfg.reset_time ≤ sleep_after cfg s inp := by
  unfold stepEvents stepSt sleep_after
  rw [step_maybe_entry_confirm cfg s inp hs h]
  exact ⟨rfl, rfl, Nat.le_add_right _ _⟩

theorem claim1_witness :
    stepEvents ⟨100, 200, 10, 5, 1⟩ ⟨.maybe_entry, 10, 1, 0⟩ ⟨300, 160, 50, 1⟩ =
      [⟨.entry, 1, 0⟩] ∧
    (stepSt ⟨100, 200, 10, 5, 1⟩ ⟨.maybe_entry, 10, 1, 0⟩ ⟨300, 160, 50, 1⟩).state =
      SState.idle ∧
    (5 : Nat) ≤ sleep_after ⟨100, 200, 10, 5, 1⟩ ⟨.maybe_entry, 10, 1, 0⟩ ⟨300, 160, 50, 1⟩ :=
  claim1_entry_event ⟨100, 200, 10, 5, 1⟩ ⟨.maybe_entry, 10, 1, 0⟩ ⟨300, 160, 50, 1⟩
    rfl (by decide)

theorem validTrace_tail (cfg : Cfg) (s : ResolverSt) (i : Input) (rest : List Input)
    (h : ValidTrace cfg s (i :: rest)) : ValidTrace cfg (stepSt cfg s i) rest := by
  cases rest with
  | nil => exact True.intro
  | cons j rest2 => exact h.2

theorem validTrace_head_le (cfg : Cfg) : ∀ (l : List Input) (s : ResolverSt) (i : Input),
    ValidTrace cfg s (i :: l) → ∀ j ∈ l, i.now + sleep_after cfg s i ≤ j.now := by
  intro l
  induction l with
  | nil =>
    intro s i _ j hj
    cases hj
  | cons k rest ih =>
    intro s i h j hj
    have h1 : i.now + sleep_after cfg s i ≤ k.now := h.1
    rcases List.mem_cons.mp hj with rfl | hj2
    · exact h1
    · have h2 := ih (stepSt cfg s i) k h.2 j hj2
      omega

theorem validTrace_drop (cfg : Cfg) : ∀ (pre l : List Input) (s : ResolverSt),
    ValidTrace cfg s (pre ++ l) → ValidTrace cfg (endState cfg s pre) l := by
  intro pre
  induction pre with
  | nil =>
    intro l s h
    exact h
  | cons p pre2 ih =>
    intro l s h
    exact ih l (stepSt cfg s p) (validTrace_tail cfg s p (pre2 ++ l) h)

theorem emit_sleep (cfg : Cfg) (s : ResolverSt) (inp : Input)
    (h : stepEvents cfg s inp ≠ []) :
    sleep_after cfg s inp = cfg.reset_time + cfg.poll_interval := by
  obtain ⟨e, he⟩ := List.exists_mem_of_ne_nil _ h
  rcases stepEvents_mem cfg s inp e he with ⟨hs, hin, _⟩ | ⟨hs, hin, _⟩
  · unfold sleep_after
    rw [step_maybe_entry_confirm cfg s inp hs hin]
  · unfold sleep_after
    rw [step_maybe_exit_confirm cfg s inp hs hin]

/-- Claim C5: along any real-time trace of the loop, if the tick at
position i writes a row, then any later tick j — in particular one on
which the idle dispatch arms a new candidate — happens at least
ResetTime after instant i: the loop sleeps reset_time (plus the poll
interval) before reading again, so no new candidate state can be entered
until ResetTime has elapsed, whatever the sensors read. -/
theorem claim5_reset_deadtime (cfg : Cfg) (s0 : ResolverSt)
    (pre mid post : List Input) (i j : Input)
    (hV : ValidTrace cfg s0 (pre ++ i :: (mid ++ j :: post)))
    (hemit : stepEvents cfg (endState cfg s0 pre) i ≠ [])
    (harm : (endState cfg s0 (pre ++ i :: mid)).state = .idle ∧
      (stepSt cfg (endState cfg s0 (pre ++ i :: mid)) j).state ≠ .idle) :
    i.now + cfg.reset_time ≤ j.now := by
  have h1 := validTrace_drop cfg pre (i :: (mid ++ j :: post)) s0 hV
  have h2 := validTrace_head_le cfg (mid ++ j :: post) (endState cfg s0 pre) i h1 j
    (List.mem_append_right mid (List.mem_cons_self j post))
  rw [emit_sleep cfg _ i hemit] at h2
  omega

theorem claim5_witness : (2 : Nat) + 5 ≤ 8 :=
  claim5_reset_deadtime ⟨100, 200, 10, 5, 1⟩ ⟨.maybe_entry, 10, 1, 0⟩ [] [] []
    ⟨300, 160, 2, 1⟩ ⟨150, 300, 8, 1⟩ ⟨by decide, True.intro⟩ (by decide)
    ⟨by decide, by decide⟩

end DoubleSensorLogic

namespace DoubleSensorLogic

theorem tdt_scan_cons (init : Nat) (p : Nat × Nat) (l : List (Nat × Nat)) :
    tdt_scan init (p :: l) = tdt_scan (tdt_scan_step init p) l := rfl

theorem observed_cons (p : Nat × Nat) (l : List (Nat × Nat)) :
    observed (p :: l) = p.1 :: p.2 :: observed l := rfl

theorem tdt_scan_le_init : ∀ (l : List (Nat × Nat)) (init : Nat), tdt_scan init l ≤ init := by
  intro l
  induction l with
  | nil => intro init; exact le_refl init
  | cons p rest ih =>
    intro init
    calc tdt_scan init (p :: rest) = tdt_scan (tdt_scan_step init p) rest := rfl
      _ ≤ tdt_scan_step init p := ih _
      _ ≤ init := le_trans (min_le_left _ _) (min_le_left _ _)

theorem tdt_scan_le_observed : ∀ (l : List (Nat × Nat)) (init d : Nat),
    d ∈ observed l → tdt_scan init l ≤ d := by
  intro l
  induction l with
  | nil =>
    intro init d hd
    cases hd
  | cons p rest ih =>
    intro init d hd
    rw [observed_cons] at hd
    rcases List.mem_cons.mp hd with rfl | hd2
    · calc tdt_scan init (p :: rest) ≤ tdt_scan_step init p := tdt_scan_le_init rest _
        _ ≤ p.1 := le_trans (min_le_left _ _) (min_le_right _ _)
    · rcases List.mem_cons.mp hd2 with rfl | hd3
      · calc tdt_scan init (p :: rest) ≤ tdt_scan_step init p := tdt_scan_le_init rest _
          _ ≤ p.2 := min_le_right _ _
      · exact ih (tdt_scan_step init p) d hd3

theorem tdt_scan_mem_or : ∀ (l : List (Nat × Nat)) (init : Nat),
    tdt_scan init l = init ∨ tdt_scan init l ∈ observed l := by
  intro l
  induction l with
  | nil =>
    intro init
    exact Or.inl rfl
  | cons p rest ih =>
    intro init
    rcases ih (tdt_scan_step init p) with h | h
    · rw [tdt_scan_cons, h]
      unfold tdt_scan_step
      rcases min_choice (min init p.1) p.2 with h2 | h2 <;> rw [h2]
      · rcases min_choice init p.1 with h3 | h3 <;> rw [h3]
        · exact Or.inl rfl
        · exact Or.inr (by rw [observed_cons]; exact List.mem_cons_self _ _)
      · exact Or.inr
          (by rw [observed_cons]; exact List.mem_cons_of_mem _ (List.mem_cons_self _ _))
    · rw [tdt_scan_cons]
      exact Or.inr (by
        rw [observed_cons]
        exact List.mem_cons_of_mem _ (List.mem_cons_of_mem _ h))

theorem tdt_scan_ge : ∀ (l : List (Nat × Nat)) (init m : Nat),
    m ≤ init → (∀ d ∈ observed l, m ≤ d) → m ≤ tdt_scan init l := by
  intro l
  induction l with
  | nil =>
    intro init m h _
    exact h
  | cons p rest ih =>
    intro init m h hall
    rw [tdt_scan_cons]
    refine ih (tdt_scan_step init p) m ?_ (fun d hd => hall d ?_)
    · exact le_min (le_min h (hall p.1 (by rw [observed_cons]; exact List.mem_cons_self _ _)))
        (hall p.2 (by
          rw [observed_cons]
          exact List.mem_cons_of_mem _ (List.mem_cons_self _ _)))
    · rw [observed_cons]
      exact List.mem_cons_of_mem _ (List.mem_cons_of_mem _ hd)

/-- Claim C7 counterexample: a calibration window in which both sensors
only ever read 8100mm returns 8000, the initial sentinel value both scan
loops start from, which is not the minimum distance observed during the
window (8100 is the only observed distance). -/
theorem claim7_counterexample :
    set_tdt_values [(8100, 8100)] [(8100, 8100)] = (8000, 8000) ∧
    (8000 : Nat) ∉ observed [((8100 : Nat), (8100 : Nat))] := by
  decide

/-- Claim C7 (amended): each returned threshold equals the minimum over
the 8000mm starting sentinel and every distance observed across both
sensors during its window.  The conjuncts pin that value exactly: the
result is a lower bound on the sentinel and on every observed distance,
and it is attained — it is either the sentinel or an observed distance,
it equals 8000 whenever every observed distance is at least 8000, and it
is an observed distance (hence exactly the minimum observed) whenever
some observed distance is at most 8000.  The quoted examples hold:
per-sensor readings 120, 95, 130, 95, 140 give min_tdt 95 and a second
window of 400, 410, 395 gives max_tdt 395. -/
theorem claim7_scan_minimum (w1 w2 : List (Nat × Nat)) :
    (∀ d ∈ observed w1, (set_tdt_values w1 w2).1 ≤ d) ∧
    (∀ d ∈ observed w2, (set_tdt_values w1 w2).2 ≤ d) ∧
    (set_tdt_values w1 w2).1 ≤ 8000 ∧ (set_tdt_values w1 w2).2 ≤ 8000 ∧
    ((set_tdt_values w1 w2).1 = 8000 ∨ (set_tdt_values w1 w2).1 ∈ observed w1) ∧
    ((set_tdt_values w1 w2).2 = 8000 ∨ (set_tdt_values w1 w2).2 ∈ observed w2) ∧
    ((∀ d ∈ observed w1, 8000 ≤ d) → (set_tdt_values w1 w2).1 = 8000) ∧
    ((∀ d ∈ observed w2, 8000 ≤ d) → (set_tdt_values w1 w2).2 = 8000) ∧
    ((∃ d ∈ observed w1, d ≤ 8000) → (set_tdt_values w1 w2).1 ∈ observed w1) ∧
    ((∃ d ∈ observed w2, d ≤ 8000) → (set_tdt_values w1 w2).2 ∈ observed w2) ∧
    set_tdt_values [(120, 120), (95, 95), (130, 130), (95, 95), (140, 140)]
      [(400, 400), (410, 410), (395, 395)] = (95, 395) := by
  refine ⟨fun d hd => tdt_scan_le_observed w1 8000 d hd,
    fun d hd => tdt_scan_le_observed w2 8000 d hd,
    tdt_scan_le_init w1 8000, tdt_scan_le_init w2 8000,
    tdt_scan_mem_or w1 8000, tdt_scan_mem_or w2 8000, ?_, ?_, ?_, ?_, by decide⟩
  · intro hall
    rcases tdt_scan_mem_or w1 8000 with h | h
    · exact h
    · exact le_antisymm (tdt_scan_le_init w1 8000) (hall _ h)
  · intro hall
    rcases tdt_scan_mem_or w2 8000 with h | h
    · exact h
    · exact le_antisymm (tdt_scan_le_init w2 8000) (hall _ h)
  · rintro ⟨d, hd, hle⟩
    rcases tdt_scan_mem_or w1 8000 with h | h
    · have h2 := tdt_scan_le_observed w1 8000 d hd
      have h3 : tdt_scan 8000 w1 = d := le_antisymm h2 (by omega)
      show tdt_scan 8000 w1 ∈ observed w1
      rw [h3]
      exact hd
    · exact h
  · rintro ⟨d, hd, hle⟩
    rcases tdt_scan_mem_or w2 8000 with h | h
    · have h2 := tdt_scan_le_observed w2 8000 d hd
      have h3 : tdt_scan 8000 w2 = d := le_antisymm h2 (by omega)
      show tdt_scan 8000 w2 ∈ observed w2
      rw [h3]
      exact hd
    · exact h

theorem claim7_witness :
    (set_tdt_values [(8100, 8100)] [(400, 400), (410, 410), (395, 395)]).1 = 8000 ∧
    (set_tdt_values [(120, 120), (95, 95), (130, 130), (95, 95), (140, 140)]
        [(400, 400), (410, 410), (395, 395)]).1 ∈
      observed [(120, 120), (95, 95), (130, 130), (95, 95), (140, 140)] :=
  ⟨(claim7_scan_minimum [(8100, 8100)]
      [(400, 400), (410, 410), (395, 395)]).2.2.2.2.2.2.1 (by decide),
   (claim7_scan_minimum [(120, 120), (95, 95), (130, 130), (95, 95), (140, 140)]
      [(400, 400), (410, 410), (395, 395)]).2.2.2.2.2.2.2.2.1 ⟨95, by decide, by decide⟩⟩

/-- Claim C8 counterexample: the two calibration windows are scanned
independently, so a first window observing only 500mm and a second
window observing only 100mm return min_tdt 500 and max_tdt 100,
violating min_mm <= max_mm. -/
theorem claim8_counterexample :
    set_tdt_values [(500, 500)] [(100, 100)] = (500, 100) ∧ ¬ (500 : Nat) ≤ 100 := by
  decide

/-- Claim C8 (amended): distances are unsigned so 0 <= min_tdt always
holds, but calibration does not enforce min_tdt <= max_tdt; that half of
the invariant holds whenever every distance observed during the second
window is at least the result of the first window. -/
theorem claim8_invariant (w1 w2 : List (Nat × Nat)) :
    0 ≤ (set_tdt_values w1 w2).1 ∧
    ((∀ d ∈ observed w2, (set_tdt_values w1 w2).1 ≤ d) →
      (set_tdt_values w1 w2).1 ≤ (set_tdt_values w1 w2).2) :=
  ⟨Nat.zero_le _, fun h => tdt_scan_ge w2 8000 _ (tdt_scan_le_init w1 8000) h⟩

theorem claim8_witness :
    (set_tdt_values [(100, 100)] [(400, 400)]).1 ≤ (set_tdt_values [(100, 100)] [(400, 400)]).2 :=
  (claim8_invariant [(100, 100)] [(400, 400)]).2 (by decide)

/-- Claim C9 counterexample: a read failure does not abort only the
current tick.  With TDT window [100, 200], a trace whose first tick
raises on the entry read and whose next two ticks would arm and confirm
an entry produces no events at all and surfaces the error: the loop
stops at the failing tick and the later reads are never processed, so
the read is not retried on the next tick.  Without the failing tick the
same two reads produce one Entry row. -/
theorem claim9_counterexample :
    runE ⟨100, 200, 10, 5, 1⟩ ⟨.idle, 0, 0, 0⟩
        [⟨.error 7, .ok 300, 0, 1⟩, ⟨.ok 150, .ok 300, 1, 1⟩, ⟨.ok 300, .ok 160, 2, 1⟩] =
      (⟨.idle, 0, 0, 0⟩, [], some 7) ∧
    (runE ⟨100, 200, 10, 5, 1⟩ ⟨.idle, 0, 0, 0⟩
        [⟨.ok 150, .ok 300, 1, 1⟩, ⟨.ok 300, .ok 160, 2, 1⟩]).2.1 = [⟨.entry, 1, 1⟩] := by
  decide

/-- Claim C9 (amended): a failed sensor read propagates to the caller of
the run loop as an error; no event is emitted for that tick, the failed
reading is never used as a distance, and the resolver state is left as
it was before the tick — but the error aborts the whole loop, not just
the current tick: the remaining ticks are not processed, so there is no
retry on the next tick. -/
theorem claim9_read_error (cfg : Cfg) (s : ResolverSt) (i : InputE)
    (rest : List InputE) (e : Nat) (h : read_pair i = .error e) :
    runE cfg s (i :: rest) = (s, [], some e) := by
  unfold runE
  rw [h]

theorem claim9_witness :
    runE ⟨100, 200, 10, 5, 1⟩ ⟨.idle, 0, 0, 0⟩
        [⟨.error 3, .ok 160, 4, 1⟩, ⟨.ok 150, .ok 300, 5, 1⟩] =
      (⟨.idle, 0, 0, 0⟩, [], some 3) :=
  claim9_read_error ⟨100, 200, 10, 5, 1⟩ ⟨.idle, 0, 0, 0⟩ ⟨.error 3, .ok 160, 4, 1⟩
    [⟨.ok 150, .ok 300, 5, 1⟩] 3 rfl

end DoubleSensorLogic
